import Mathlib

/-!
Verification of the torrent-packer release pipeline against its specification.

The TypeScript source is shallowly embedded: pure computations become Lean
functions over `Nat`, `ℚ`, `String` and `List Char`; fallible operations
return `Except` or `Option`; the module-level verification-warning flag is
threaded explicitly.  Paths are modelled as forward-slash separated strings
(already in the normal form `path.normalize` produces on POSIX).
-/

namespace TorrentPacker

/-! ### Generic character-list utilities (JS `String.prototype.includes` / `startsWith`) -/

/-- `startsWithSeq pre l` is true when `l` starts with the character run `pre`
(JS `String.prototype.startsWith`). -/
def startsWithSeq : List Char → List Char → Bool
  | [], _ => true
  | _ :: _, [] => false
  | p :: ps, h :: hs => decide (p = h) && startsWithSeq ps hs

/-- `containsSeq needle hay` is true when `needle` occurs contiguously in `hay`
(JS `String.prototype.includes`). -/
def containsSeq (needle : List Char) : List Char → Bool
  | [] => decide (needle = [])
  | c :: rest => startsWithSeq needle (c :: rest) || containsSeq needle rest

/-- ASCII lower-casing of one character, enough for the `/i` regex flags used
by the source (`/FLAC/i`, `/\.mp3$/i`), whose needles are ASCII. -/
def toLowerAscii (c : Char) : Char :=
  if 'A' ≤ c ∧ c ≤ 'Z' then Char.ofNat (c.toNat + 32) else c

def isDigitChar (c : Char) : Bool := decide ('0' ≤ c) && decide (c ≤ '9')

def isAsciiLetterChar (c : Char) : Bool :=
  (decide ('A' ≤ c) && decide (c ≤ 'Z')) || (decide ('a' ≤ c) && decide (c ≤ 'z'))

/-! ### `calculatePieceLength` (src/torrent-creator.ts)

The byte thresholds table and the scanning loop
`for (let i = 15; i < pieceLengthMaxes.length; i++)`. -/

def ONEMEG : Nat := 1048576

/-- `pieceLengthMaxes`: maximum total torrent size covered by piece length
`2^i`, indexed by `i`; indices 0–14 unused. -/
def pieceLengthMaxes : List Nat :=
  [0, 0, 0, 0, 0, 0, 0, 0, 0, 0, 0, 0, 0, 0, 0,
   50 * ONEMEG, 100 * ONEMEG, 200 * ONEMEG, 400 * ONEMEG,
   800 * ONEMEG, 1600 * ONEMEG, 3200 * ONEMEG, 6400 * ONEMEG]

/-- The scanning loop: first index whose threshold is not exceeded wins;
falling off the table yields `2 ^ 22`. -/
def pieceLengthFrom (totalSize : Nat) : List Nat → Nat → Nat
  | [], _ => 2 ^ 22
  | m :: ms, i => if totalSize ≤ m then 2 ^ i else pieceLengthFrom totalSize ms (i + 1)

def calculatePieceLength (totalSize : Nat) : Nat :=
  pieceLengthFrom totalSize (pieceLengthMaxes.drop 15) 15

/-- Closed form of `calculatePieceLength`: thresholds are binary megabytes
(50 MiB = 52428800 bytes, doubling up to 6400 MiB = 6710886400 bytes). -/
theorem calculatePieceLength_eq (n : Nat) :
    calculatePieceLength n =
      if n ≤ 52428800 then 32768
      else if n ≤ 104857600 then 65536
      else if n ≤ 209715200 then 131072
      else if n ≤ 419430400 then 262144
      else if n ≤ 838860800 then 524288
      else if n ≤ 1677721600 then 1048576
      else if n ≤ 3355443200 then 2097152
      else if n ≤ 6710886400 then 4194304
      else 4194304 := by
  simp only [calculatePieceLength, pieceLengthMaxes, ONEMEG, List.drop, pieceLengthFrom]
  norm_num

/-- Claim C1, counterexample part: a total size of 50,000,001 bytes still
yields 32 KiB pieces (the 32 KiB threshold is 50 MiB = 52,428,800 bytes),
not the 64 KiB the claim states. -/
theorem C1_piece_length_counterexample :
    calculatePieceLength 50000001 = 32768 ∧ (32768 : Nat) ≠ 65536 := by
  decide

set_option maxHeartbeats 1600000 in
/-- Claim C1 (amended): piece-length selection is a pure function of total
size, monotonic non-decreasing, always a power of two between `2^15` and
`2^22`; 50,000,000 bytes and 50,000,001 bytes both yield 32 KiB pieces (the
boundary is at 52,428,800 = 50 MiB, with 52,428,801 the first size yielding
64 KiB), and 7,000,000,000 bytes yields the maximum 4 MiB pieces. -/
theorem C1_piece_length_amended :
    (∀ a b : Nat, a ≤ b → calculatePieceLength a ≤ calculatePieceLength b)
    ∧ (∀ n : Nat, ∃ k, 15 ≤ k ∧ k ≤ 22 ∧ calculatePieceLength n = 2 ^ k)
    ∧ calculatePieceLength 50000000 = 32768
    ∧ calculatePieceLength 50000001 = 32768
    ∧ calculatePieceLength 52428800 = 32768
    ∧ calculatePieceLength 52428801 = 65536
    ∧ calculatePieceLength 7000000000 = 4194304 := by
  refine ⟨?_, ?_, by decide, by decide, by decide, by decide, by decide⟩
  · intro a b hab
    rw [calculatePieceLength_eq a, calculatePieceLength_eq b]
    split_ifs <;> omega
  · intro n
    rw [calculatePieceLength_eq n]
    split_ifs
    · exact ⟨15, by norm_num⟩
    · exact ⟨16, by norm_num⟩
    · exact ⟨17, by norm_num⟩
    · exact ⟨18, by norm_num⟩
    · exact ⟨19, by norm_num⟩
    · exact ⟨20, by norm_num⟩
    · exact ⟨21, by norm_num⟩
    · exact ⟨22, by norm_num⟩
    · exact ⟨22, by norm_num⟩

/-- Witness for C1: the monotonicity part applied at concrete sizes. -/
theorem C1_piece_length_witness :
    calculatePieceLength 1000 ≤ calculatePieceLength 200000000 :=
  C1_piece_length_amended.1 1000 200000000 (by norm_num)

/-! ### The trailing format tag regex

`basename.match(/\[([^\]]+)\]$/)` is used by `parseReleaseDirectory`,
`replaceFormatTag` and `hasBitrateInFormatTag`.  A match decomposes the
name as `pre ++ "[" ++ tag ++ "]"` where the final `]` closes the string,
`tag` is nonempty and contains no `]`, and the `[` is the leftmost one from
which such a match is possible. -/

/-- Matches the remainder of the string against `[^\]]+\]$`: the input must
be `tag ++ [']']` with `tag` free of `]` (possibly empty; emptiness is
rejected by the caller). -/
def closedContent : List Char → Option (List Char)
  | [] => none
  | [c] => if c = ']' then some [] else none
  | c :: rest => if c = ']' then none else (closedContent rest).map (c :: ·)

/-- Content of a trailing bracketed group: `closedContent` plus the
nonemptiness required by `[^\]]+`. -/
def tagContent (rest : List Char) : Option (List Char) :=
  match closedContent rest with
  | some tag => if tag = [] then none else some tag
  | none => none

/-- `match(/\[([^\]]+)\]$/)`: returns the characters before the match and
the captured group. -/
def findTag : List Char → Option (List Char × List Char)
  | [] => none
  | c :: rest =>
    if c = '[' then
      match tagContent rest with
      | some tag => some ([], tag)
      | none => (findTag rest).map (fun pt => (c :: pt.1, pt.2))
    else (findTag rest).map (fun pt => (c :: pt.1, pt.2))

theorem closedContent_eq_some {l tag : List Char} (h : closedContent l = some tag) :
    l = tag ++ [']'] ∧ tag.contains ']' = false := by
  induction l generalizing tag with
  | nil => simp [closedContent] at h
  | cons c rest ih =>
    match rest, tag with
    | [], tag =>
      simp only [closedContent] at h
      split at h
      · cases h
        simp_all [List.contains]
      · cases h
    | r :: rs, tag =>
      simp only [closedContent] at h
      split at h
      · cases h
      · rename_i hc
        cases htag : closedContent (r :: rs) with
        | none => rw [htag] at h; cases h
        | some t =>
          rw [htag] at h
          cases h
          obtain ⟨heq, hfree⟩ := ih htag
          refine ⟨by simp [heq], ?_⟩
          simp [List.contains] at hfree ⊢
          exact ⟨fun h' => hc h'.symm, hfree⟩

theorem tagContent_eq_some {l tag : List Char} (h : tagContent l = some tag) :
    l = tag ++ [']'] ∧ tag ≠ [] ∧ tag.contains ']' = false := by
  unfold tagContent at h
  cases htag : closedContent l with
  | none => rw [htag] at h; cases h
  | some t =>
    rw [htag] at h
    by_cases ht : t = []
    · simp [ht] at h
    · simp only [if_neg ht, Option.some.injEq] at h
      subst h
      obtain ⟨heq, hfree⟩ := closedContent_eq_some htag
      exact ⟨heq, ht, hfree⟩

/-- Soundness of the regex embedding: a match really decomposes the input. -/
theorem findTag_eq_some :
    ∀ {l pre tag : List Char}, findTag l = some (pre, tag) →
      l = pre ++ '[' :: (tag ++ [']']) ∧ tag ≠ [] ∧ tag.contains ']' = false := by
  intro l
  induction l with
  | nil => intro pre tag h; simp [findTag] at h
  | cons c rest ih =>
    intro pre tag h
    simp only [findTag] at h
    split at h
    · rename_i hc
      subst hc
      cases htc : tagContent rest with
      | some t =>
        rw [htc] at h
        cases h
        obtain ⟨heq, hne, hfree⟩ := tagContent_eq_some htc
        exact ⟨by simp [heq], hne, hfree⟩
      | none =>
        rw [htc] at h
        cases hrec : findTag rest with
        | none => rw [hrec] at h; cases h
        | some pt =>
          rw [hrec] at h
          cases h
          obtain ⟨heq, hne, hfree⟩ := ih hrec
          exact ⟨by simp [heq], hne, hfree⟩
    · cases hrec : findTag rest with
      | none => rw [hrec] at h; cases h
      | some pt =>
        rw [hrec] at h
        cases h
        obtain ⟨heq, hne, hfree⟩ := ih hrec
        exact ⟨by simp [heq], hne, hfree⟩

theorem closedContent_append (tag : List Char) (h : tag.contains ']' = false) :
    closedContent (tag ++ [']']) = some tag := by
  induction tag with
  | nil => rfl
  | cons c rest ih =>
    have hc : ¬(c = ']') := by
      intro hceq
      subst hceq
      simp [List.contains_cons] at h
    have hrest : rest.contains ']' = false := by
      simp only [List.contains_cons, Bool.or_eq_false_iff] at h
      exact h.2
    cases rest with
    | nil => simp [closedContent, hc]
    | cons d ds =>
      have hds := ih hrest
      rw [List.cons_append] at hds
      simp only [List.cons_append, closedContent, if_neg hc, List.append_eq]
      rw [hds]
      rfl

theorem tagContent_append (tag : List Char) (hne : tag ≠ [])
    (hfree : tag.contains ']' = false) : tagContent (tag ++ [']']) = some tag := by
  unfold tagContent
  rw [closedContent_append tag hfree]
  show (if tag = [] then none else some tag) = some tag
  rw [if_neg hne]

/-- Completeness of the regex embedding: whenever the name decomposes as
`pre ++ "[" ++ tag ++ "]"` with an admissible tag, the regex matches. -/
theorem findTag_complete :
    ∀ pre tag : List Char, tag ≠ [] → tag.contains ']' = false →
      findTag (pre ++ '[' :: (tag ++ [']'])) ≠ none := by
  intro pre
  induction pre with
  | nil =>
    intro tag hne hfree
    have htc := tagContent_append tag hne hfree
    simp [findTag, htc]
  | cons c pre ih =>
    intro tag hne hfree
    have hrec := ih tag hne hfree
    simp only [List.cons_append, findTag]
    split
    · cases htc : tagContent (pre ++ '[' :: (tag ++ [']'])) with
      | some t => simp
      | none =>
        simp only [htc]
        cases hr : findTag (pre ++ '[' :: (tag ++ [']'])) with
        | none => exact absurd hr hrec
        | some pt => simp
    · cases hr : findTag (pre ++ '[' :: (tag ++ [']'])) with
      | none => exact absurd hr hrec
      | some pt => simp [hr]

/-! ### `replaceFormatTag` (src/release-parser.ts, updated version)

Preserves the media-designation prefix matched by `^(\d*[A-Za-z]+r?)-` and
collapses a numeric disc count via `.replace(/^\d+(CD)/i, '$1')`. -/

/-- The regex `^(\d*[A-Za-z]+r?)-` applied to a tag.  Since `\d` and
`[A-Za-z]` are disjoint, and the optional `r` is itself a letter, the match
succeeds exactly when a nonempty letter run follows the leading digits and a
`-` follows that run; the captured group is digits ++ letters. -/
def mediaDesignation (tag : List Char) : Option (List Char) :=
  let ds := tag.takeWhile isDigitChar
  let afterDigits := tag.drop ds.length
  let ls := afterDigits.takeWhile isAsciiLetterChar
  let afterLetters := afterDigits.drop ls.length
  if ls ≠ [] ∧ afterLetters.head? = some '-' then some (ds ++ ls) else none

/-- `.replace(/^\d+(CD)/i, '$1')`: drop a nonempty leading digit run when it
is immediately followed by `CD` (ASCII case-insensitive). -/
def collapseCDCount (p : List Char) : List Char :=
  let ds := p.takeWhile isDigitChar
  let rest := p.drop ds.length
  match ds, rest with
  | _ :: _, c :: d :: _ =>
    if (c = 'C' ∨ c = 'c') ∧ (d = 'D' ∨ d = 'd') then rest else p
  | _, _ => p

/-- `replaceFormatTag(dirName, newFormatTag)` from src/release-parser.ts. -/
def replaceFormatTag (dirName newFormatTag : String) : String :=
  match findTag dirName.data with
  | none => dirName
  | some (pre, currentTag) =>
    match mediaDesignation currentTag with
    | some m =>
      let mediaPfx := collapseCDCount m
      ⟨pre ++ '[' :: ((mediaPfx ++ '-' :: newFormatTag.data) ++ [']'])⟩
    | none => ⟨pre ++ '[' :: (newFormatTag.data ++ [']'])⟩

/-- Claim C4, counterexample part: replacing the format tag of
`Album [FLAC-24]` with a new tag equal to its existing tag `FLAC-24` does
not return the name unchanged: the regex `^(\d*[A-Za-z]+r?)-` treats `FLAC`
as a media-designation prefix, so the result is `Album [FLAC-FLAC-24]`. -/
theorem C4_replace_format_tag_counterexample :
    replaceFormatTag "Album [FLAC-24]" "FLAC-24" = "Album [FLAC-FLAC-24]"
    ∧ "Album [FLAC-FLAC-24]" ≠ "Album [FLAC-24]" := by
  decide

/-- Claim C4 (amended): format-tag replacement returns the name unchanged
when the existing tag decomposes as media-designation prefix + `-` + the new
tag with the disc-count prefix already collapsed, or when the tag has no
media-designation match and equals the new tag (it is not idempotent when
the new tag itself contains the media prefix, or contains a hyphen after a
letter run, as the counterexample shows).  A matched media-designation
prefix such as `CD-` or `WEB-` is always preserved, and numeric disc-count
prefixes such as `2CD-` are collapsed to `CD-`. -/
theorem C4_replace_format_tag_amended :
    (∀ (dirName t : String) (pre m : List Char),
        findTag dirName.data = some (pre, m ++ '-' :: t.data) →
        mediaDesignation (m ++ '-' :: t.data) = some m →
        collapseCDCount m = m →
        replaceFormatTag dirName t = dirName)
    ∧ (∀ (dirName t : String) (pre : List Char),
        findTag dirName.data = some (pre, t.data) →
        mediaDesignation t.data = none →
        replaceFormatTag dirName t = dirName)
    ∧ replaceFormatTag "Album [CD-FLAC]" "320" = "Album [CD-320]"
    ∧ replaceFormatTag "Album [2CD-FLAC]" "FLAC" = "Album [CD-FLAC]"
    ∧ replaceFormatTag "Album [WEB-FLAC]" "V0" = "Album [WEB-V0]" := by
  refine ⟨?_, ?_, by decide, by decide, by decide⟩
  · intro dirName t pre m h1 h2 h3
    have hdec := (findTag_eq_some h1).1
    simp only [replaceFormatTag, h1, h2, h3]
    have : dirName = ⟨dirName.data⟩ := rfl
    rw [this, hdec]
  · intro dirName t pre h1 h2
    have hdec := (findTag_eq_some h1).1
    simp only [replaceFormatTag, h1, h2]
    have : dirName = ⟨dirName.data⟩ := rfl
    rw [this, hdec]

/-- Witness for C4: the unchanged-name part applied to a concrete release
name whose tag already has the collapsed media prefix and the new format. -/
theorem C4_replace_format_tag_witness :
    replaceFormatTag "X1 [CD-FLAC]" "FLAC" = "X1 [CD-FLAC]" :=
  C4_replace_format_tag_amended.1 "X1 [CD-FLAC]" "FLAC" "X1 ".data "CD".data
    (by decide) (by decide) (by decide)

/-! ### `parseReleaseDirectory` format classification (src/release-parser.ts) -/

inductive AudioFormat
  | flac
  | mp3cbr320
  | mp3v0
  | other (raw : List Char)
deriving DecidableEq

/-- Case-insensitive containment, as performed by `/FLAC/i.test(tag)` for an
ASCII needle. -/
def containsSeqCI (needle hay : List Char) : Bool :=
  containsSeq (needle.map toLowerAscii) (hay.map toLowerAscii)

/-- Format/bit-depth classification of a tag, from `parseReleaseDirectory`:
`/24/`, `/320/` and `/V0/` are case-sensitive, `/FLAC/i` is
case-insensitive; the first match of the chain wins, otherwise the raw tag
is kept. -/
def classifyFormatTag (tag : List Char) : AudioFormat × Bool :=
  let is24Bit := containsSeq ['2', '4'] tag
  let fmt :=
    if containsSeqCI ['F', 'L', 'A', 'C'] tag then AudioFormat.flac
    else if containsSeq ['3', '2', '0'] tag then AudioFormat.mp3cbr320
    else if containsSeq ['V', '0'] tag then AudioFormat.mp3v0
    else AudioFormat.other tag
  (fmt, is24Bit)

/-- `parseReleaseDirectory` on a basename: `none` models the fatal
`Could not parse format from directory name` error. -/
def parseReleaseFormat (basename : String) : Option (AudioFormat × Bool) :=
  (findTag basename.data).map (fun pt => classifyFormatTag pt.2)

/-- Classification following the words of claim C6 literally: all three
containment tests read as plain (case-sensitive) substring containment. -/
def claimClassifyFormatTag (tag : List Char) : AudioFormat × Bool :=
  let is24Bit := containsSeq ['2', '4'] tag
  let fmt :=
    if containsSeq ['F', 'L', 'A', 'C'] tag then AudioFormat.flac
    else if containsSeq ['3', '2', '0'] tag then AudioFormat.mp3cbr320
    else if containsSeq ['V', '0'] tag then AudioFormat.mp3v0
    else AudioFormat.other tag
  (fmt, is24Bit)

/-- Classification following claim C6 as amended: the `FLAC` test ignores
ASCII case, the rest of the chain is unchanged. -/
def amendedClassifyFormatTag (tag : List Char) : AudioFormat × Bool :=
  let is24Bit := containsSeq ['2', '4'] tag
  let fmt :=
    if containsSeq ['f', 'l', 'a', 'c'] (tag.map toLowerAscii) then AudioFormat.flac
    else if containsSeq ['3', '2', '0'] tag then AudioFormat.mp3cbr320
    else if containsSeq ['V', '0'] tag then AudioFormat.mp3v0
    else AudioFormat.other tag
  (fmt, is24Bit)

/-- Claim C6, counterexample part: for the basename `Album [flac]` the code
classifies the format as FLAC (the test `/FLAC/i` is case-insensitive),
while the claim's literal reading — the tag `flac` does not contain the
substring `FLAC` — would retain the raw tag value. -/
theorem C6_classification_counterexample :
    parseReleaseFormat "Album [flac]" = some (AudioFormat.flac, false)
    ∧ claimClassifyFormatTag "flac".data = (AudioFormat.other "flac".data, false)
    ∧ AudioFormat.flac ≠ AudioFormat.other "flac".data := by
  decide

/-- Claim C6 (amended): classification fails fatally exactly when the
basename has no trailing bracketed format tag (no decomposition
`pre ++ "[" ++ tag ++ "]"` with `tag` nonempty and free of `]`), and on the
extracted tag the code's classification agrees everywhere with the amended
chain: FLAC when the tag contains `FLAC` ignoring ASCII case, else MP3-320
when it contains `320`, else MP3-V0 when it contains `V0`, else the raw tag;
the 24-bit flag is set exactly when the tag contains the literal `24`. -/
theorem C6_classification_amended :
    (∀ basename : String,
        parseReleaseFormat basename = none ↔
          ¬∃ pre tag : List Char,
              basename.data = pre ++ '[' :: (tag ++ [']'])
              ∧ tag ≠ [] ∧ tag.contains ']' = false)
    ∧ (∀ tag : List Char, classifyFormatTag tag = amendedClassifyFormatTag tag)
    ∧ (∀ tag : List Char, (classifyFormatTag tag).2 = containsSeq ['2', '4'] tag) := by
  refine ⟨?_, ?_, fun tag => rfl⟩
  · intro basename
    have hnone : parseReleaseFormat basename = none ↔ findTag basename.data = none := by
      unfold parseReleaseFormat
      cases findTag basename.data <;> simp
    rw [hnone]
    constructor
    · rintro hft ⟨pre, tag, heq, hne, hfree⟩
      rw [heq] at hft
      exact findTag_complete pre tag hne hfree hft
    · intro hno
      cases hft : findTag basename.data with
      | none => rfl
      | some pt =>
        obtain ⟨heq, hne, hfree⟩ := findTag_eq_some hft
        exact absurd ⟨pt.1, pt.2, heq, hne, hfree⟩ hno
  · intro tag
    have hmap : (['F', 'L', 'A', 'C'].map toLowerAscii) = ['f', 'l', 'a', 'c'] := by decide
    unfold classifyFormatTag amendedClassifyFormatTag containsSeqCI
    rw [hmap]

/-! ### `validateTranscodedDurations` (src/duration-validator.ts)

MP3 files are modelled by their path relative to the rendition directory
paired with their probed duration; the DurationMap is an association list
keyed by release-relative FLAC paths.  Durations are rationals. -/

def DURATION_TOLERANCE : ℚ := 1

/-- `Math.abs` on rationals (kept as an executable definition). -/
def mathAbs (q : ℚ) : ℚ := if q < 0 then -q else q

/-- `path.basename` for forward-slash paths. -/
def basenameOf (p : String) : String :=
  ⟨(p.data.reverse.takeWhile (fun c => decide (c ≠ '/'))).reverse⟩

/-- The test of `/\.mp3$/i` against a path. -/
def endsWithMp3CI (p : List Char) : Bool :=
  match p.reverse with
  | three :: pc :: mc :: dot :: _ =>
    decide (three = '3') && decide (toLowerAscii pc = 'p')
      && decide (toLowerAscii mc = 'm') && decide (dot = '.')
  | _ => false

/-- `mp3RelativePath.replace(/\.mp3$/i, ".flac")`. -/
def toFlacKey (p : String) : String :=
  if endsWithMp3CI p.data then
    ⟨p.data.dropLast.dropLast.dropLast.dropLast ++ ".flac".data⟩
  else p

/-- `Map.get` on an association list. -/
def mapLookup : List (String × ℚ) → String → Option ℚ
  | [], _ => none
  | (k, v) :: rest, key => if k = key then some v else mapLookup rest key

/-- The loop body of `validateTranscodedDurations`: a produced file
contributes an error entry (naming the file) exactly when it has a
DurationMap entry and differs from it by more than the tolerance; a missing
entry is only logged. -/
def durationErrorFor (flacDurations : List (String × ℚ)) (f : String × ℚ) :
    Option String :=
  match mapLookup flacDurations (toFlacKey f.1) with
  | none => none
  | some expected =>
    if mathAbs (f.2 - expected) > DURATION_TOLERANCE then some (basenameOf f.1)
    else none

def transcodedDurationErrors (mp3Files flacDurations : List (String × ℚ)) :
    List String :=
  mp3Files.filterMap (durationErrorFor flacDurations)

/-- `validateTranscodedDurations`: throws (models as `Except.error` carrying
the collected per-file error entries) iff the error list is nonempty. -/
def validateTranscodedDurations (mp3Files flacDurations : List (String × ℚ)) :
    Except (List String) Unit :=
  if transcodedDurationErrors mp3Files flacDurations ≠ [] then
    Except.error (transcodedDurationErrors mp3Files flacDurations)
  else Except.ok ()

/-- Claim C5: duration validation fails iff some produced file with a
DurationMap entry is off by strictly more than 1.0 s; a rendition with all
files within 1.0 s passes; a file exactly 1.01 s off fails, identified by
name in the single aggregate error; a file with no DurationMap entry never
causes failure. -/
theorem C5_duration_validation :
    (∀ mp3Files flacDurations : List (String × ℚ),
        validateTranscodedDurations mp3Files flacDurations ≠ Except.ok () ↔
          ∃ f ∈ mp3Files, ∃ e, mapLookup flacDurations (toFlacKey f.1) = some e
            ∧ mathAbs (f.2 - e) > 1)
    ∧ (∀ mp3Files flacDurations : List (String × ℚ),
        (∀ f ∈ mp3Files, ∀ e, mapLookup flacDurations (toFlacKey f.1) = some e →
          mathAbs (f.2 - e) ≤ 1) →
        validateTranscodedDurations mp3Files flacDurations = Except.ok ())
    ∧ validateTranscodedDurations [("01 Track.mp3", 20101 / 100)]
        [("01 Track.flac", 200)] = Except.error ["01 Track.mp3"]
    ∧ validateTranscodedDurations [("99 Hidden.mp3", 5000)] [] = Except.ok () := by
  have herr : ∀ (flacDurations : List (String × ℚ)) (f : String × ℚ) (x : String),
      durationErrorFor flacDurations f = some x →
      ∃ e, mapLookup flacDurations (toFlacKey f.1) = some e
        ∧ mathAbs (f.2 - e) > 1 := by
    intro flacDurations f x hfx
    cases hlk : mapLookup flacDurations (toFlacKey f.1) with
    | none =>
      simp only [durationErrorFor, hlk] at hfx
      exact Option.noConfusion hfx
    | some e =>
      simp only [durationErrorFor, hlk] at hfx
      by_cases hgt : mathAbs (f.2 - e) > DURATION_TOLERANCE
      · exact ⟨e, rfl, hgt⟩
      · rw [if_neg hgt] at hfx; cases hfx
  have hnil : ∀ (mp3Files flacDurations : List (String × ℚ)),
      (∀ f ∈ mp3Files, ∀ e, mapLookup flacDurations (toFlacKey f.1) = some e →
        mathAbs (f.2 - e) ≤ 1) →
      transcodedDurationErrors mp3Files flacDurations = [] := by
    intro mp3Files flacDurations h
    refine List.filterMap_eq_nil_iff.mpr ?_
    intro f hf
    cases hlk : mapLookup flacDurations (toFlacKey f.1) with
    | none => simp only [durationErrorFor, hlk]
    | some e =>
      have hle := h f hf e hlk
      simp only [durationErrorFor, hlk]
      exact if_neg (show ¬mathAbs (f.2 - e) > DURATION_TOLERANCE from not_lt.mpr hle)
  refine ⟨?_, ?_, ?_, by rfl⟩
  · intro mp3Files flacDurations
    unfold validateTranscodedDurations
    by_cases hne : transcodedDurationErrors mp3Files flacDurations ≠ []
    · rw [if_pos hne]
      refine iff_of_true (by simp) ?_
      obtain ⟨x, hx⟩ := List.exists_mem_of_ne_nil _ hne
      obtain ⟨f, hf, hfx⟩ := List.mem_filterMap.mp hx
      exact ⟨f, hf, herr flacDurations f x hfx⟩
    · rw [if_neg hne]
      refine iff_of_false (by simp) ?_
      rintro ⟨f, hf, e, hlk, hgt⟩
      have hnone := List.filterMap_eq_nil_iff.mp (not_not.mp hne) f hf
      simp only [durationErrorFor, hlk] at hnone
      rw [if_pos (show mathAbs (f.2 - e) > DURATION_TOLERANCE from hgt)] at hnone
      cases hnone
  · intro mp3Files flacDurations h
    unfold validateTranscodedDurations
    rw [hnil mp3Files flacDurations h]
    simp
  · have hkey : toFlacKey "01 Track.mp3" = "01 Track.flac" := by decide
    have hbase : basenameOf "01 Track.mp3" = "01 Track.mp3" := by decide
    have hnn : ¬((20101 / 100 : ℚ) - 200 < 0) := by norm_num
    have hcmp : mathAbs ((20101 / 100 : ℚ) - 200) > DURATION_TOLERANCE := by
      unfold mathAbs DURATION_TOLERANCE
      rw [if_neg hnn]
      norm_num
    have hd : durationErrorFor [("01 Track.flac", (200 : ℚ))]
        ("01 Track.mp3", (20101 / 100 : ℚ)) = some "01 Track.mp3" := by
      simp only [durationErrorFor, hkey, mapLookup, if_pos]
      rw [if_pos hcmp, hbase]
    have herrs : transcodedDurationErrors [("01 Track.mp3", 20101 / 100)]
        [("01 Track.flac", 200)] = ["01 Track.mp3"] := by
      simp [transcodedDurationErrors, hd]
    unfold validateTranscodedDurations
    rw [herrs]
    simp

/-- Witness for C5: the all-within-tolerance part applied to a concrete
rendition. -/
theorem C5_duration_validation_witness :
    validateTranscodedDurations [("02 Song.mp3", 180)] [("02 Song.flac", 1805 / 10)]
      = Except.ok () := by
  refine C5_duration_validation.2.1 [("02 Song.mp3", 180)]
    [("02 Song.flac", 1805 / 10)] ?_
  intro f hf e hlk
  have hfval : f = ("02 Song.mp3", (180 : ℚ)) := by
    simpa using hf
  subst hfval
  have hkey : toFlacKey "02 Song.mp3" = "02 Song.flac" := by decide
  rw [hkey] at hlk
  simp only [mapLookup, if_pos, Option.some.injEq] at hlk
  subst hlk
  have hneg : ((180 : ℚ) - 1805 / 10 < 0) := by norm_num
  show mathAbs ((180 : ℚ) - 1805 / 10) ≤ 1
  unfold mathAbs
  rw [if_pos hneg]
  norm_num

/-! ### Channel/duration probe (src/audio-test.ts, src/validator.ts) -/

/-- `getAudioFileInfo` throws `Failed to get audio info` when the parsed
channel count or duration is zero. -/
def audioInfoReadFails (channels : Nat) (duration : ℚ) : Bool :=
  decide (channels = 0) || decide (duration = 0)

/-- `validateChannelCount` throws when `info.channels > 2`. -/
def channelCountFails (channels : Nat) : Bool := decide (channels > 2)

/-- A probed audio file is fatal for the release iff `getAudioFileInfo` or
`validateChannelCount` throws for it. -/
def audioProbeFatal (channels : Nat) (duration : ℚ) : Bool :=
  audioInfoReadFails channels duration || channelCountFails channels

/-- `validateAudioFiles` flags files with `info.duration < 1` as suspicious
(console warning only). -/
def suspiciousDuration (duration : ℚ) : Bool := decide (duration < 1)

/-- Claim C9: for a probed file reporting a positive duration, a fatal
error is raised iff the reported channel count is not exactly 1 or 2; a
duration under 1 second with a valid channel count yields only the
suspicious warning and is never fatal. -/
theorem C9_channel_duration :
    ∀ (channels : Nat) (duration : ℚ), 0 < duration →
      (audioProbeFatal channels duration = true ↔ channels ≠ 1 ∧ channels ≠ 2)
      ∧ (duration < 1 → (channels = 1 ∨ channels = 2) →
          audioProbeFatal channels duration = false
          ∧ suspiciousDuration duration = true) := by
  intro channels duration hd
  have hdne : duration ≠ 0 := ne_of_gt hd
  constructor
  · simp only [audioProbeFatal, audioInfoReadFails, channelCountFails,
      Bool.or_eq_true, decide_eq_true_eq, hdne, or_false]
    omega
  · intro h1 h2
    refine ⟨?_, by simp [suspiciousDuration, h1]⟩
    simp only [audioProbeFatal, audioInfoReadFails, channelCountFails,
      Bool.or_eq_false_iff, decide_eq_false_iff_not]
    exact ⟨⟨by omega, hdne⟩, by omega⟩

/-- Witness for C9: a stereo file of half a second is not fatal but is
flagged suspicious. -/
theorem C9_channel_duration_witness :
    audioProbeFatal 2 (1 / 2) = false ∧ suspiciousDuration (1 / 2) = true :=
  (C9_channel_duration 2 (1 / 2) (by norm_num)).2 (by norm_num) (Or.inr rfl)

/-! ### `downsample24BitFlac` (src/downsample.ts)

Files are modelled by the probe results `getFlacSpecs` returns (path,
sample rate, bit depth); external effects become a description of what is
written: each 24-bit file is resampled to its target rate, each 16-bit file
is copied verbatim. -/

structure FlacSpec where
  path : String
  sampleRate : Nat
  bitDepth : Nat
deriving DecidableEq

inductive DsAction
  | resampled (targetRate : Nat)
  | copied
deriving DecidableEq

/-- `getTargetSampleRate`: the fixed lookup, throwing on unsupported
rates. -/
def getTargetSampleRate (sourceSampleRate : Nat) : Except String Nat :=
  if sourceSampleRate = 192000 ∨ sourceSampleRate = 96000 then Except.ok 48000
  else if sourceSampleRate = 176400 ∨ sourceSampleRate = 88200 then Except.ok 44100
  else if sourceSampleRate = 48000 ∨ sourceSampleRate = 44100 then
    Except.ok sourceSampleRate
  else Except.error "Unsupported sample rate for downsampling"

/-- `downsample24BitFlac` on the probed specs: fails when no FLAC files are
found or any bit depth is neither 16 nor 24; otherwise reports whether the
mixed-bit-depth warning banner was printed and the action taken per file. -/
def downsample24BitFlac (files : List FlacSpec) :
    Except String (Bool × List (String × DsAction)) :=
  if files = [] then Except.error "No FLAC files found"
  else
    let files24 := files.filter (fun s => decide (s.bitDepth = 24))
    let files16 := files.filter (fun s => decide (s.bitDepth = 16))
    let filesOtherBitDepth :=
      files.filter (fun s => decide (s.bitDepth ≠ 24) && decide (s.bitDepth ≠ 16))
    if filesOtherBitDepth ≠ [] then
      Except.error "Found files with unsupported bit depths (not 16 or 24)"
    else
      let mixedWarning := decide (files16 ≠ []) && decide (files24 ≠ [])
      match files24.mapM (fun s =>
          (getTargetSampleRate s.sampleRate).map
            (fun t => (s.path, DsAction.resampled t))) with
      | Except.error e => Except.error e
      | Except.ok ds =>
        Except.ok (mixedWarning, ds ++ files16.map (fun s => (s.path, DsAction.copied)))

/-- Claim C7: the target-rate lookup is exactly 192/96 kHz → 48 kHz,
176.4/88.2 kHz → 44.1 kHz, 48/44.1 kHz pass-through; any probed bit depth
other than 16 or 24 is fatal for the release; 16-bit files are copied
through unchanged; a release with one 24-bit and one 16-bit file triggers
the mixed-bit-depth warning yet downsampling completes. -/
theorem C7_downsample :
    (getTargetSampleRate 192000 = Except.ok 48000
      ∧ getTargetSampleRate 96000 = Except.ok 48000
      ∧ getTargetSampleRate 176400 = Except.ok 44100
      ∧ getTargetSampleRate 88200 = Except.ok 44100
      ∧ getTargetSampleRate 48000 = Except.ok 48000
      ∧ getTargetSampleRate 44100 = Except.ok 44100)
    ∧ (∀ files : List FlacSpec,
        (∃ f ∈ files, f.bitDepth ≠ 16 ∧ f.bitDepth ≠ 24) →
        ∃ e, downsample24BitFlac files = Except.error e)
    ∧ (∀ (files : List FlacSpec) (w : Bool) (outs : List (String × DsAction)),
        downsample24BitFlac files = Except.ok (w, outs) →
        ∀ f ∈ files, f.bitDepth = 16 → (f.path, DsAction.copied) ∈ outs)
    ∧ downsample24BitFlac [⟨"a.flac", 96000, 24⟩, ⟨"b.flac", 44100, 16⟩]
      = Except.ok (true,
          [("a.flac", DsAction.resampled 48000), ("b.flac", DsAction.copied)]) := by
  refine ⟨by refine ⟨rfl, rfl, rfl, rfl, rfl, rfl⟩, ?_, ?_, by rfl⟩
  · rintro files ⟨f, hf, h24, h16⟩
    have hne : files ≠ [] := List.ne_nil_of_mem hf
    have hother :
        files.filter (fun s => decide (s.bitDepth ≠ 24) && decide (s.bitDepth ≠ 16)) ≠ [] := by
      refine List.ne_nil_of_mem (a := f) ?_
      refine List.mem_filter.mpr ⟨hf, ?_⟩
      simp [h24, h16]
    unfold downsample24BitFlac
    rw [if_neg (by simpa using hne), if_pos hother]
    exact ⟨_, rfl⟩
  · intro files w outs hok f hf h16
    unfold downsample24BitFlac at hok
    by_cases hne : files = []
    · rw [if_pos hne] at hok
      cases hok
    · rw [if_neg hne] at hok
      by_cases hother :
          files.filter (fun s => decide (s.bitDepth ≠ 24) && decide (s.bitDepth ≠ 16)) ≠ []
      · rw [if_pos hother] at hok
        cases hok
      · rw [if_neg hother] at hok
        cases hmap : List.mapM (fun s =>
            (getTargetSampleRate s.sampleRate).map
              (fun t => (s.path, DsAction.resampled t)))
            (files.filter (fun s => decide (s.bitDepth = 24))) with
        | error e => rw [hmap] at hok; cases hok
        | ok ds =>
          rw [hmap] at hok
          cases hok
          refine List.mem_append.mpr (Or.inr ?_)
          refine List.mem_map.mpr ⟨f, ?_, rfl⟩
          exact List.mem_filter.mpr ⟨hf, by simp [h16]⟩

/-- Witness for C7: a single 8-bit file makes the release fatal. -/
theorem C7_downsample_witness :
    ∃ e, downsample24BitFlac [⟨"bad.flac", 44100, 8⟩] = Except.error e :=
  C7_downsample.2.1 [⟨"bad.flac", 44100, 8⟩]
    ⟨⟨"bad.flac", 44100, 8⟩, by simp, by simp, by simp⟩

/-! ### The verification-warning flag and the operator gate
(src/warning-utils.ts, src/validator.ts, src/processor.ts)

Only `printVerificationWarning` sets the module-level
`hasShownVerificationWarning` flag.  During verification it is called by
`checkForId3Tags` (nonempty `id3Files`) and `checkUnicodeNormalization`
(nonempty `issues`); `validateAudioFiles` reports suspicious short files
with `console.warn` and `validateLogFiles` reports unrecognized/edited logs
with `console.log`, neither touching the flag.  `downsample24BitFlac` also
calls it for mixed bit depths, but only after the gate. -/

/-- The findings the verification checks of one release can surface. -/
structure VerificationFindings where
  id3Files : List String
  unicodeIssues : List String
  shortDurationFiles : List String
  unrecognizedLogs : List String
  editedLogs : List String
deriving DecidableEq

/-- Whether `checkForId3Tags` prints a verification warning banner. -/
def checkForId3TagsWarns (f : VerificationFindings) : Bool :=
  decide (f.id3Files ≠ [])

/-- Whether `checkUnicodeNormalization` prints a verification warning
banner. -/
def checkUnicodeWarns (f : VerificationFindings) : Bool :=
  decide (f.unicodeIssues ≠ [])

/-- `validateAudioFiles` warns about short files via `console.warn` only:
it never sets the verification-warning flag. -/
def validateAudioFilesWarns (_f : VerificationFindings) : Bool := false

/-- `validateLogFiles` reports unrecognized/edited logs via `console.log`
only: it never sets the verification-warning flag. -/
def validateLogFilesWarns (_f : VerificationFindings) : Bool := false

/-- Value of `hasVerificationWarnings()` at the gate in `processRelease`:
the flag starts from `resetVerificationWarnings()` and each check of Step 1
(in source order; the FLAC-only checks run when the release has no MP3) ORs
in whether it printed a warning banner. -/
def verificationFlagAtGate (hasMP3 : Bool) (f : VerificationFindings) : Bool :=
  let flag := false
  let flag :=
    if hasMP3 then flag || validateAudioFilesWarns f
    else flag || checkForId3TagsWarns f || checkUnicodeWarns f
      || validateAudioFilesWarns f
  flag || validateLogFilesWarns f

inductive GateOutcome
  | proceed
  | skipped
deriving DecidableEq

/-- The interactive gate of `processRelease`: prompt iff the flag is set;
declining returns an empty result (the release is skipped, not failed). -/
def gateDecision (hasMP3 : Bool) (f : VerificationFindings)
    (operatorConfirms : Bool) : GateOutcome :=
  if verificationFlagAtGate hasMP3 f then
    if operatorConfirms then GateOutcome.proceed else GateOutcome.skipped
  else GateOutcome.proceed

/-- Claim C3, counterexample part: a FLAC release whose only findings are a
suspiciously short audio file and an unrecognized plus an edited log passes
the gate with no confirmation prompt — those warnings never set the flag,
contradicting the claim that any of the listed warnings blocks subsequent
stages. -/
theorem C3_gate_counterexample :
    verificationFlagAtGate false ⟨[], [], ["intro.flac"], ["rip.log"], ["disc2.log"]⟩
      = false
    ∧ gateDecision false ⟨[], [], ["intro.flac"], ["rip.log"], ["disc2.log"]⟩ false
      = GateOutcome.proceed
    ∧ (["intro.flac"] : List String) ≠ [] := by
  decide

/-- Claim C3 (amended): the confirmation gate fires exactly when the
legacy-tag (ID3) check or the Unicode-normalization check warned on a
non-MP3 release; suspicious short files and unrecognized/edited log results
never set the flag (and for MP3 releases no check can set it); when the
gate fires and the operator declines, the release is skipped without being
treated as an error, otherwise processing proceeds. -/
theorem C3_gate_amended :
    ∀ (hasMP3 : Bool) (f : VerificationFindings) (operatorConfirms : Bool),
      verificationFlagAtGate hasMP3 f
        = (!hasMP3 && (decide (f.id3Files ≠ []) || decide (f.unicodeIssues ≠ [])))
      ∧ gateDecision hasMP3 f operatorConfirms
        = (if verificationFlagAtGate hasMP3 f && !operatorConfirms then
            GateOutcome.skipped
          else GateOutcome.proceed) := by
  intro hasMP3 f operatorConfirms
  constructor
  · cases hasMP3 <;>
      simp [verificationFlagAtGate, validateAudioFilesWarns, validateLogFilesWarns,
        checkForId3TagsWarns, checkUnicodeWarns]
  · unfold gateDecision
    cases hflag : verificationFlagAtGate hasMP3 f <;> cases operatorConfirms <;> simp

/-! ### Batch isolation of the warning flag (src/processor.ts)

`processRelease` calls `resetVerificationWarnings()` before its checks, so
the prompt of each release is a function of that release's own findings;
warnings printed after a release's gate (the mixed-bit-depth banner during
downsampling) only affect the flag value carried out of that release, which
the next release discards. -/

/-- Per-release inputs to the batch model. -/
structure ReleaseParams where
  hasMP3 : Bool
  findings : VerificationFindings
  mixedBitDepthWarned : Bool
deriving DecidableEq

/-- One release of the batch, threading the module-level flag: the incoming
value is overwritten by `resetVerificationWarnings()`, the gate reads the
flag after the checks, and the mixed-bit-depth banner printed during
downsampling (after the gate) ORs into the outgoing value. -/
def releaseGateStep (flagIn : Bool) (p : ReleaseParams) : Bool × Bool :=
  let flagAfterReset := false
  let flagAtGate := flagAfterReset || verificationFlagAtGate p.hasMP3 p.findings
  (flagAtGate, flagAtGate || p.mixedBitDepthWarned)

/-- Whether each release of a batch shows the confirmation prompt, threading
the shared flag left to right. -/
def batchGatePrompts (flagIn : Bool) : List ReleaseParams → List Bool
  | [] => []
  | p :: ps =>
    (releaseGateStep flagIn p).1 :: batchGatePrompts (releaseGateStep flagIn p).2 ps

/-- Claim C10: each release's confirmation prompt depends only on its own
verification findings — whatever flag value earlier releases left behind
(including warnings they printed after their own gate, such as the
mixed-bit-depth banner), the prompts of a batch are pointwise the
per-release gate values. -/
theorem C10_gate_isolation :
    ∀ (flagIn : Bool) (ps : List ReleaseParams),
      batchGatePrompts flagIn ps
        = ps.map (fun p => verificationFlagAtGate p.hasMP3 p.findings) := by
  intro flagIn ps
  induction ps generalizing flagIn with
  | nil => rfl
  | cons p ps ih =>
    simp only [batchGatePrompts, List.map_cons, releaseGateStep, Bool.false_or]
    rw [ih]

/-! ### `processRelease` Step 3 for 24-bit releases, and torrent creation
(src/processor.ts, src/torrent-creator.ts)

The 24-bit branch wraps downsampling, both MP3 transcodes and both duration
validations in one `try { ... } catch { console.error("Downsampling not yet
implemented"); }`.  A thrown duration-validation error is therefore caught:
the assignments already made to `result` are kept and control continues to
Step 4, which creates torrents from `result`.  The model is parameterized
by which awaited operations succeed. -/

structure ProcessingResult where
  flac : Option String := none
  flac24 : Option String := none
  mp3_320 : Option String := none
  mp3_v0 : Option String := none
  bluray : Option String := none
  dvd : Option String := none
  photobook : Option String := none
deriving DecidableEq

/-- Step 3 of `processRelease` for a release classified 24-bit (not MP3):
`flac24` is set to the source, then the `try` block runs; any failure is
caught and the partial `result` is returned (processing continues). -/
def step3For24Bit (releaseDir downsampledDir mp3Dir320 mp3DirV0 : String)
    (skip320 downsampleOk validate320Ok validateV0Ok : Bool) : ProcessingResult :=
  let r : ProcessingResult := { flac24 := some releaseDir }
  if !downsampleOk then r
  else
    let r := { r with flac := some downsampledDir }
    if !skip320 then
      let r := { r with mp3_320 := some mp3Dir320 }
      if !validate320Ok then r
      else
        let r := { r with mp3_v0 := some mp3DirV0 }
        if !validateV0Ok then r else r
    else
      let r := { r with mp3_v0 := some mp3DirV0 }
      if !validateV0Ok then r else r

structure TrackerConfig where
  name : String
  no320 : Bool := false
  outputBluray : Bool := false
  outputDVD : Bool := false
  outputPhotobook : Bool := false
deriving DecidableEq

/-- The rendition directories `createTorrentsForRelease` creates a torrent
for, in source order, for one tracker. -/
def torrentsForTracker (r : ProcessingResult) (t : TrackerConfig) : List String :=
  r.flac.toList ++ r.flac24.toList
    ++ (if t.no320 then [] else r.mp3_320.toList)
    ++ r.mp3_v0.toList
    ++ (if t.outputBluray then r.bluray.toList else [])
    ++ (if t.outputDVD then r.dvd.toList else [])
    ++ (if t.outputPhotobook then r.photobook.toList else [])

/-- Claim C2 (code bug): for a 24-bit release whose MP3-320 rendition fails
duration validation, the `catch` swallows the error; the result keeps the
24-bit source, the downsampled FLAC and the suspect MP3-320 rendition, and
Step 4 still creates torrents for all three — including the rendition whose
duration validation failed — contradicting the claim that processing aborts
with no torrent produced. -/
theorem C2_duration_failure_swallowed :
    (step3For24Bit "in24" "ds16" "m320" "mv0" false true false true).mp3_320
      = some "m320"
    ∧ (step3For24Bit "in24" "ds16" "m320" "mv0" false true false true).mp3_v0
      = none
    ∧ torrentsForTracker (step3For24Bit "in24" "ds16" "m320" "mv0" false true false true)
        ⟨"red", false, false, false, false⟩ = ["ds16", "in24", "m320"]
    ∧ (["ds16", "in24", "m320"] : List String) ≠ [] := by
  decide

/-! ### Torrent file selection (src/torrent-creator.ts, src/file-utils.ts)

`createTorrentFile` starts from the full paths `getAllFiles(releaseDir)`
returns, filters by disc paths, then drops files matching the tracker's
exclude patterns via `matchesPattern` — which normalizes separators and
tests `includes(pattern)` on the FULL path, not the release-relative one.
Paths are modelled POSIX-style (`path.normalize` the identity, `path.sep`
= `/`). -/

inductive DiscType
  | cd
  | bd
  | dvd
  | photobook
deriving DecidableEq

structure DiscInfo where
  path : String
  type : DiscType
deriving DecidableEq

/-- `filePath.replace(/\\/g, "/")`. -/
def normalizeSlashes (p : String) : String :=
  ⟨p.data.map (fun c => if c = '\\' then '/' else c)⟩

/-- `matchesPattern` from src/file-utils.ts: substring test of each pattern
against the normalized path. -/
def matchesPattern (filePath : String) (patterns : List String) : Bool :=
  patterns.any (fun pat => containsSeq pat.data (normalizeSlashes filePath).data)

/-- `normalizedFile.startsWith(discPath + path.sep) || normalizedFile ===
discPath`. -/
def fileWithinDisc (file discPath : String) : Bool :=
  startsWithSeq (discPath.data ++ ['/']) file.data || decide (file = discPath)

/-- The disc-type filtering stage of `createTorrentFile`: with explicit
`includeDiscTypes`, keep only files under matching discs; with none given
but discs present, exclude files under Blu-ray/DVD/photobook discs. -/
def discFilterStep (allFiles : List String) (discs : List DiscInfo)
    (includeDiscTypes : Option (List DiscType)) : List String :=
  match includeDiscTypes with
  | some types =>
    if discs ≠ [] then
      let includedDiscPaths :=
        (discs.filter (fun d => types.contains d.type)).map (fun d => d.path)
      allFiles.filter (fun f => includedDiscPaths.any (fun dp => fileWithinDisc f dp))
    else allFiles
  | none =>
    if discs ≠ [] then
      let excludedDiscPaths :=
        (discs.filter (fun d =>
            decide (d.type = DiscType.bd) || decide (d.type = DiscType.dvd)
              || decide (d.type = DiscType.photobook))).map (fun d => d.path)
      allFiles.filter (fun f => !excludedDiscPaths.any (fun dp => fileWithinDisc f dp))
    else allFiles

/-- The tracker-exclusion stage, applied after disc filtering and only when
patterns are configured. -/
def patternFilterStep (files : List String) (excludeFilePatterns : List String) :
    List String :=
  if excludeFilePatterns ≠ [] then
    files.filter (fun f => !matchesPattern f excludeFilePatterns)
  else files

/-- The file-selection pipeline of `createTorrentFile`. -/
def selectTorrentFiles (allFiles : List String) (discs : List DiscInfo)
    (includeDiscTypes : Option (List DiscType))
    (excludeFilePatterns : List String) : List String :=
  patternFilterStep (discFilterStep allFiles discs includeDiscTypes) excludeFilePatterns

/-- `path.relative(releaseDir, filePath)` for the modelled POSIX paths:
strip the directory prefix. -/
def relativeToDir (dir file : String) : String :=
  if startsWithSeq (dir.data ++ ['/']) file.data then
    ⟨file.data.drop (dir.data.length + 1)⟩
  else file

/-- Modelled from the claim C8 wording: the exclusion substring test is
applied to the path taken relative to the rendition directory. -/
def claimPatternFilterStep (releaseDir : String) (files : List String)
    (excludeFilePatterns : List String) : List String :=
  if excludeFilePatterns ≠ [] then
    files.filter (fun f => !matchesPattern (relativeToDir releaseDir f) excludeFilePatterns)
  else files

/-- Modelled from the claim C8 wording: selection with relative-path
exclusion. -/
def claimSelectTorrentFiles (releaseDir : String) (allFiles : List String)
    (discs : List DiscInfo) (includeDiscTypes : Option (List DiscType))
    (excludeFilePatterns : List String) : List String :=
  claimPatternFilterStep releaseDir (discFilterStep allFiles discs includeDiscTypes)
    excludeFilePatterns

/-- Claim C8, counterexample part: the pattern `Scans` appears only in the
rendition directory's own absolute path, not in the file's relative path
`01.flac`; the code excludes the file (substring match on the full path)
while the claim's relative-path rule keeps it. -/
theorem C8_file_selection_counterexample :
    selectTorrentFiles ["/data/Scans/Album [FLAC]/01.flac"] [] none ["Scans"] = []
    ∧ claimSelectTorrentFiles "/data/Scans/Album [FLAC]"
        ["/data/Scans/Album [FLAC]/01.flac"] [] none ["Scans"]
      = ["/data/Scans/Album [FLAC]/01.flac"]
    ∧ ([] : List String) ≠ ["/data/Scans/Album [FLAC]/01.flac"] := by
  decide

/-- Claim C8 (amended): in a main (non-disc-restricted) torrent of a
release with discs, no selected file lies under a Blu-ray/DVD/photobook
disc path; and a file survives selection iff it survives disc filtering and
its FULL path, normalized to forward slashes, contains no tracker exclude
pattern as a substring (tracker exclusions are applied after disc
filtering). -/
theorem C8_file_selection_amended :
    ∀ (allFiles : List String) (discs : List DiscInfo)
      (excludeFilePatterns : List String),
      (∀ f ∈ selectTorrentFiles allFiles discs none excludeFilePatterns,
        ∀ d ∈ discs,
          (d.type = DiscType.bd ∨ d.type = DiscType.dvd ∨ d.type = DiscType.photobook) →
          fileWithinDisc f d.path = false)
      ∧ (∀ f, f ∈ selectTorrentFiles allFiles discs none excludeFilePatterns ↔
          f ∈ discFilterStep allFiles discs none
            ∧ matchesPattern f excludeFilePatterns = false) := by
  intro allFiles discs excludeFilePatterns
  have hmem : ∀ f, f ∈ selectTorrentFiles allFiles discs none excludeFilePatterns ↔
      f ∈ discFilterStep allFiles discs none
        ∧ matchesPattern f excludeFilePatterns = false := by
    intro f
    unfold selectTorrentFiles patternFilterStep
    by_cases hpat : excludeFilePatterns ≠ []
    · rw [if_pos hpat]
      rw [List.mem_filter]
      simp
    · rw [if_neg hpat]
      push_neg at hpat
      subst hpat
      simp [matchesPattern]
  refine ⟨?_, hmem⟩
  intro f hf d hd htype
  have hdisc : f ∈ discFilterStep allFiles discs none := ((hmem f).mp hf).1
  have hdiscs_ne : discs ≠ [] := List.ne_nil_of_mem hd
  unfold discFilterStep at hdisc
  rw [if_pos hdiscs_ne] at hdisc
  have hnot := (List.mem_filter.mp hdisc).2
  simp only [Bool.not_eq_true', List.any_eq_false] at hnot
  refine Bool.eq_false_iff.mpr (hnot d.path ?_)
  refine List.mem_map.mpr ⟨d, ?_, rfl⟩
  refine List.mem_filter.mpr ⟨hd, ?_⟩
  rcases htype with h | h | h <;> simp [h]

/-- Witness for C8: in a release with a Blu-ray disc, the selected file of
the main torrent is not under the disc path. -/
theorem C8_file_selection_witness :
    fileWithinDisc "R/Disc 1/01.flac" "R/BD" = false :=
  (C8_file_selection_amended ["R/Disc 1/01.flac"] [⟨"R/BD", DiscType.bd⟩] []).1
    "R/Disc 1/01.flac" (by decide) ⟨"R/BD", DiscType.bd⟩ (by decide) (Or.inl rfl)

end TorrentPacker
